import Mathlib

set_option maxRecDepth 10000

/-!
Shallow embedding of `battery_management` (`src/main.rs`), a daemon that
provisions a named FIFO command channel and serves threshold-update
commands read from it.  Strings are modelled as `List Char`, filesystem
and syscall outcomes as explicit oracle values, and the side effects of
`main` / `set_thresholds` as event lists.
-/

namespace BatteryManagement

/-- Strings of the Rust program, modelled as lists of characters. -/
abbrev Str := List Char

/-- ASCII whitespace recognised by `str::trim` (the Unicode set restricted
to the characters relevant here). -/
def isWs (c : Char) : Bool :=
  c = ' ' || c = '\t' || c = '\n' || c = '\r' || c = '\x0b' || c = '\x0c'

/-- `str::trim`: remove leading and trailing whitespace. -/
def trim (s : Str) : Str :=
  ((s.dropWhile isWs).reverse.dropWhile isWs).reverse

/-- `char::to_digit(8)`: the value of an octal digit, `none` otherwise. -/
def charToDigit8 (c : Char) : Option Nat :=
  if '0' ≤ c && c ≤ '7' then some (c.toNat - '0'.toNat) else none

/-- The accumulating loop of `OctalPermissions::from_str`:
`sum <<= 3; sum += digit` on a `u32` (the shift discards high bits,
hence the `% 2^32`; the addition cannot overflow afterwards). -/
def fromStrGo : Nat → Str → Option Nat
  | sum, [] => some sum
  | sum, c :: rest =>
    match charToDigit8 c with
    | none => none
    | some d => fromStrGo (sum * 8 % 2 ^ 32 + d) rest

/-- `OctalPermissions::from_str`: trim, then fold octal digits. -/
def octalPermissions_from_str (s : Str) : Option Nat :=
  fromStrGo 0 (trim s)

/-- The character for an octal digit value. -/
def octDigitChar (d : Nat) : Char := Char.ofNat ('0'.toNat + d)

/-- Octal digits of `n`, least significant first, with explicit fuel so
the definition reduces in the kernel.  `fuel ≥ 1` suffices for `n < 8`,
and `fuel = n + 1` always suffices since `n / 8 < n` for `n ≥ 8`. -/
def octDigitsLE : Nat → Nat → List Nat
  | 0, _ => []
  | fuel + 1, n => if n < 8 then [n] else n % 8 :: octDigitsLE fuel (n / 8)

/-- Octal digits of `n`, most significant first. -/
def natToOctal (n : Nat) : List Nat := (octDigitsLE (n + 1) n).reverse

/-- Left-pad a character list to width `w` with `c`. -/
def padLeft (l : List Char) (w : Nat) (c : Char) : List Char :=
  List.replicate (w - l.length) c ++ l

/-- `Display for OctalPermissions`: `format!("{:03o}", inner)` — octal,
zero-padded to at least three digits (`inner` is a `u32`). -/
def octalPermissions_fmt (v : Nat) : Str :=
  padLeft ((natToOctal (v % 2 ^ 32)).map octDigitChar) 3 '0'

/-- `p` is a prefix of `s` (how `str::split_once` matches its pattern at a
given position). -/
def isPrefixList : Str → Str → Bool
  | [], _ => true
  | _ :: _, [] => false
  | p :: ps, c :: cs => p = c && isPrefixList ps cs

/-- `str::split_once(pat)`: split at the first occurrence of `pat`,
returning the parts before and after it, or `none` when `pat` does not
occur. -/
def splitOnce (pat : Str) : Str → Option (Str × Str)
  | [] => if isPrefixList pat [] then some ([], ([] : Str).drop pat.length) else none
  | c :: rest =>
    if isPrefixList pat (c :: rest) then some ([], (c :: rest).drop pat.length)
    else
      match splitOnce pat rest with
      | some (l, r) => some (c :: l, r)
      | none => none

/-- `pat` occurs as a contiguous subsequence of `s` (`str::contains`). -/
def containsSeq (pat : Str) : Str → Bool
  | [] => isPrefixList pat []
  | c :: rest => isPrefixList pat (c :: rest) || containsSeq pat rest

/-- `trim_if_some` from the source: trim both components of an optional
pair. -/
def trim_if_some (v : Option (Str × Str)) : Option (Str × Str) :=
  match v with
  | some (v1, v2) => some (trim v1, trim v2)
  | none => none

/-- A decimal digit's value, `none` for any other character. -/
def decDigit (c : Char) : Option Nat :=
  if '0' ≤ c && c ≤ '9' then some (c.toNat - '0'.toNat) else none

/-- Digit loop of `u8::from_str`: accumulate decimal digits with an
overflow check against 255. -/
def parseU8Digits : Nat → Str → Option Nat
  | acc, [] => some acc
  | acc, c :: rest =>
    match decDigit c with
    | none => none
    | some d => if acc * 10 + d > 255 then none else parseU8Digits (acc * 10 + d) rest

/-- `str::parse::<u8>()`: empty input fails, a single leading `+` is
allowed (but not alone), a `-` is rejected for the unsigned type, every
remaining character must be a decimal digit and the value must fit in
eight bits. -/
def parse_u8 (s : Str) : Option Nat :=
  match s with
  | [] => none
  | ['+'] => none
  | '+' :: rest => parseU8Digits 0 rest
  | _ => parseU8Digits 0 s

/-- Decimal digits of `n`, least significant first, fueled as in
`octDigitsLE`. -/
def decDigitsLE : Nat → Nat → List Nat
  | 0, _ => []
  | fuel + 1, n => if n < 10 then [n] else n % 10 :: decDigitsLE fuel (n / 10)

/-- `u8::to_string`: decimal rendering of a value. -/
def u8_to_string (n : Nat) : Str :=
  ((decDigitsLE (n + 1) n).reverse).map octDigitChar

/-- The two threshold control points. -/
inductive Side
  | startSide
  | endSide
deriving DecidableEq, Repr

/-- Observable effects of one command dispatch: an attempted write of a
decimal string to one control point (with the outcome the filesystem
reported), or an error log line. `log::info` lines are subsumed by the
`true` outcome on a write event. -/
inductive Event
  | writeAttempt (side : Side) (value : Str) (ok : Bool)
  | logError (msg : String)
deriving DecidableEq, Repr

/-- `set_thresholds` from the source. `wr side` is the outcome
`std::fs::write` would report for that control point.  Returns the
emitted events in program order. -/
def set_thresholds (wr : Side → Bool) (start_o end_o : Option Str) : List Event :=
  if start_o.isNone && end_o.isNone then
    [Event.logError "Neither start nor end threshold provided"]
  else
    let (startEvents, startParsable) :=
      match start_o with
      | none => (([] : List Event), false)
      | some start_s =>
        match parse_u8 start_s with
        | none => (([] : List Event), false)
        | some start =>
          ([Event.writeAttempt Side.startSide (u8_to_string start) (wr Side.startSide)], true)
    let (endEvents, endParsable) :=
      match end_o with
      | none => (([] : List Event), false)
      | some end_s =>
        match parse_u8 end_s with
        | none => (([] : List Event), false)
        | some endv =>
          ([Event.writeAttempt Side.endSide (u8_to_string endv) (wr Side.endSide)], true)
    startEvents ++ endEvents ++
      (if !(startParsable || endParsable) then
        [Event.logError "Neither start nor end threshold parsable"]
      else [])

/-- The range delimiter `".."`. -/
def dotdot : Str := ['.', '.']

/-- The assignment delimiter `"="` (`split_once('=')`). -/
def eqLit : Str := ['=']

/-- The mode literal `"start"`. -/
def startLit : Str := ['s', 't', 'a', 'r', 't']

/-- The mode literal `"end"`. -/
def endLit : Str := ['e', 'n', 'd']

/-- The command-handling part of one loop iteration (lines 232–243 of
`main.rs`): try the range form first, then the assignment form, else do
nothing. -/
def handle_command (wr : Side → Bool) (cmd : Str) : List Event :=
  match trim_if_some (splitOnce dotdot cmd) with
  | some (startv, endv) => set_thresholds wr (some startv) (some endv)
  | none =>
    match trim_if_some (splitOnce eqLit cmd) with
    | some (mode, value) =>
      if mode = startLit then set_thresholds wr (some value) none
      else if mode = endLit then set_thresholds wr none (some value)
      else [Event.logError "Wrong mode provided"]
    | none => []

/-- Outcome of one `read_to_string` on the pipe. -/
inductive ReadResult
  | ok (cmd : Str)
  | err
deriving DecidableEq, Repr

/-- What the loop does after one iteration.  The Rust `loop` could
`break` (modelled by `exitLoop`) but never does. -/
inductive LoopControl
  | next
  | exitLoop
deriving DecidableEq, Repr

/-- One iteration of the serving loop (lines 226–244): a failed read is
logged and the loop continues; a successful read is handed to the
command parser and the loop also continues.  The iteration touches no
other state. -/
def loop_iteration (wr : Side → Bool) (r : ReadResult) : List Event × LoopControl :=
  match r with
  | ReadResult.err => ([Event.logError "Error while reading IPC command from pipe"], LoopControl.next)
  | ReadResult.ok cmd => (handle_command wr cmd, LoopControl.next)

/-- Classified kind of an `std::io::Error` from `metadata`.  The source
never inspects the kind: it only distinguishes `Ok` from `Err`. -/
inductive IoErrorKind
  | notFound
  | permissionDenied
  | otherErr
deriving DecidableEq, Repr

/-- The fields of `std::fs::Metadata` the provisioner reads. -/
structure Metadata where
  isFifo : Bool
  uid : Nat
  gid : Nat
  mode : Nat
deriving DecidableEq, Repr

deriving instance DecidableEq for Except

/-- Inputs to the provisioning phase of `main`: the CLI configuration
and oracles for each syscall outcome. `priorUmask` is the process umask
on entry. -/
structure ProvisionEnv where
  pipe_uid : Option Nat
  pipe_gid : Option Nat
  pipe_permissions : Nat
  metadataResult : Except IoErrorKind Metadata
  chownOk : Bool
  setPermissionsOk : Bool
  mkfifoOk : Bool
  priorUmask : Nat
deriving DecidableEq, Repr

/-- Filesystem-mutating actions the provisioner can attempt. -/
inductive Action
  | chownAct (uid gid : Option Nat)
  | setPermissionsAct (mode : Nat)
  | setUmask (v : Nat)
  | mkfifoAct (mode : Nat)
deriving DecidableEq, Repr

/-- Whether `main` returns early (`abort`) or goes on past provisioning. -/
inductive ProvisionOutcome
  | abort
  | proceed
deriving DecidableEq, Repr

/-- `Option::is_some_and`. -/
def isSomeAnd (o : Option Nat) (p : Nat → Bool) : Bool :=
  match o with
  | some a => p a
  | none => false

/-- Ownership and permission reconciliation on an existing FIFO
(lines 119–155), after the chown step contributed `acts`.  Compares the
low nine bits of the observed mode with the configured value and sets
the mode when they differ; a failure aborts. -/
def permStep (env : ProvisionEnv) (md : Metadata) (acts : List Action) :
    ProvisionOutcome × List Action × Nat :=
  if md.mode % 512 = env.pipe_permissions then (ProvisionOutcome.proceed, acts, env.priorUmask)
  else if env.setPermissionsOk then
    (ProvisionOutcome.proceed, acts ++ [Action.setPermissionsAct env.pipe_permissions], env.priorUmask)
  else
    (ProvisionOutcome.abort, acts ++ [Action.setPermissionsAct env.pipe_permissions], env.priorUmask)

/-- The channel-provisioning phase of `main` (lines 106–186).  Returns
the outcome, the attempted filesystem actions in order, and the process
umask after the phase.  On `Ok` metadata: a non-FIFO aborts untouched;
otherwise chown runs when a configured id differs (failure aborts), then
the permission check.  On `Err` metadata of any kind: the umask is set
to 0 and `mkfifo` is attempted with the configured mode; the umask is
never restored. -/
def provision (env : ProvisionEnv) : ProvisionOutcome × List Action × Nat :=
  match env.metadataResult with
  | Except.ok md =>
    if md.isFifo = false then (ProvisionOutcome.abort, [], env.priorUmask)
    else
      let wrong_ids :=
        isSomeAnd env.pipe_uid (fun uid => md.uid ≠ uid) ||
        isSomeAnd env.pipe_gid (fun gid => md.gid ≠ gid)
      if wrong_ids then
        if env.chownOk then
          permStep env md [Action.chownAct env.pipe_uid env.pipe_gid]
        else
          (ProvisionOutcome.abort, [Action.chownAct env.pipe_uid env.pipe_gid], env.priorUmask)
      else
        permStep env md []
  | Except.error _ =>
    if env.mkfifoOk then
      (ProvisionOutcome.proceed, [Action.setUmask 0, Action.mkfifoAct env.pipe_permissions], 0)
    else
      (ProvisionOutcome.abort, [Action.setUmask 0, Action.mkfifoAct env.pipe_permissions], 0)

/-- Whether the process enters the serving loop or returns early. -/
inductive StartupOutcome
  | abortRun
  | serve
deriving DecidableEq, Repr

/-- The startup writability gate (lines 208–222): abort only when
neither control path is writable. -/
def writability_gate (start_writable end_writable : Bool) : StartupOutcome :=
  if !start_writable && !end_writable then StartupOutcome.abortRun else StartupOutcome.serve

/-- A side of an intent is present and parses as a `u8`. -/
def parsableSide (o : Option Str) : Bool :=
  match o with
  | none => false
  | some s => (parse_u8 s).isSome

/-- A provisioning input whose inspection fails with permission-denied
(the path may well exist) and whose `mkfifo` succeeds. -/
def envInspectDenied : ProvisionEnv :=
  { pipe_uid := none, pipe_gid := none, pipe_permissions := 511,
    metadataResult := Except.error IoErrorKind.permissionDenied,
    chownOk := true, setPermissionsOk := true, mkfifoOk := true, priorUmask := 18 }

/-- A provisioning input on the ordinary creation path: the path is
absent, `mkfifo` succeeds, and the umask on entry is `0o022 = 18`. -/
def envCreateSuccess : ProvisionEnv :=
  { pipe_uid := none, pipe_gid := none, pipe_permissions := 511,
    metadataResult := Except.error IoErrorKind.notFound,
    chownOk := true, setPermissionsOk := true, mkfifoOk := true, priorUmask := 18 }

/-- A provisioning input where a regular file occupies the channel
path. -/
def envNonFifo : ProvisionEnv :=
  { pipe_uid := some 0, pipe_gid := none, pipe_permissions := 511,
    metadataResult := Except.ok { isFifo := false, uid := 1000, gid := 1000, mode := 33188 },
    chownOk := true, setPermissionsOk := true, mkfifoOk := true, priorUmask := 18 }

/- ======================  Theorems  ====================== -/

/-- A successful `isPrefixList` match means `s` starts with `p`. -/
theorem isPrefixList_eq (p : Str) :
    ∀ s : Str, isPrefixList p s = true → s = p ++ s.drop p.length := by
  induction p with
  | nil => intro s _; simp
  | cons x xs ih =>
    intro s h
    cases s with
    | nil => simp [isPrefixList] at h
    | cons c cs =>
      simp only [isPrefixList, Bool.and_eq_true, decide_eq_true_eq] at h
      obtain ⟨rfl, h2⟩ := h
      have := ih cs h2
      simpa [List.drop] using this

/-- `p` is a prefix of `p ++ b`. -/
theorem isPrefixList_self_append (p b : Str) : isPrefixList p (p ++ b) = true := by
  induction p with
  | nil => rfl
  | cons x xs ih => simp [isPrefixList, ih]

/-- `containsSeq` agrees with `splitOnce` succeeding. -/
theorem containsSeq_eq_isSome (pat : Str) :
    ∀ s : Str, containsSeq pat s = (splitOnce pat s).isSome := by
  intro s
  induction s with
  | nil =>
    by_cases h : isPrefixList pat [] = true <;> simp [containsSeq, splitOnce, h]
  | cons c cs ih =>
    by_cases h : isPrefixList pat (c :: cs) = true
    · simp [containsSeq, splitOnce, h]
    · simp only [containsSeq, splitOnce, h, Bool.false_or, if_neg h]
      rw [ih]
      cases splitOnce pat cs with
      | none => simp
      | some lr => cases lr; simp

/-- `splitOnce` decomposes its input around the pattern. -/
theorem splitOnce_eq_append (pat : Str) :
    ∀ s l r : Str, splitOnce pat s = some (l, r) → s = l ++ pat ++ r := by
  intro s
  induction s with
  | nil =>
    intro l r h
    by_cases hp : isPrefixList pat [] = true
    · have hpe := isPrefixList_eq pat [] hp
      simp [splitOnce, hp] at h
      obtain ⟨rfl, rfl⟩ := h
      simpa using hpe
    · simp [splitOnce, hp] at h
  | cons c cs ih =>
    intro l r h
    by_cases hp : isPrefixList pat (c :: cs) = true
    · have hpe := isPrefixList_eq pat (c :: cs) hp
      simp [splitOnce, hp] at h
      obtain ⟨rfl, rfl⟩ := h
      simpa using hpe
    · simp only [splitOnce, if_neg hp] at h
      cases hs : splitOnce pat cs with
      | none => rw [hs] at h; simp at h
      | some lr =>
        obtain ⟨l0, r0⟩ := lr
        rw [hs] at h
        simp at h
        obtain ⟨rfl, rfl⟩ := h
        have := ih l0 r0 hs
        simp [this]

/-- `splitOnce` splits at the first occurrence of the pattern: any other
decomposition has an at-least-as-long left part. -/
theorem splitOnce_first (pat : Str) :
    ∀ s l r : Str, splitOnce pat s = some (l, r) →
      ∀ a b : Str, s = a ++ pat ++ b → l.length ≤ a.length := by
  intro s
  induction s with
  | nil =>
    intro l r h a b _
    by_cases hp : isPrefixList pat [] = true
    · simp [splitOnce, hp] at h
      obtain ⟨rfl, rfl⟩ := h
      simp
    · simp [splitOnce, hp] at h
  | cons c cs ih =>
    intro l r h a b hab
    by_cases hp : isPrefixList pat (c :: cs) = true
    · simp [splitOnce, hp] at h
      obtain ⟨rfl, rfl⟩ := h
      simp
    · simp only [splitOnce, if_neg hp] at h
      cases hs : splitOnce pat cs with
      | none => rw [hs] at h; simp at h
      | some lr =>
        obtain ⟨l0, r0⟩ := lr
        rw [hs] at h
        simp at h
        obtain ⟨rfl, rfl⟩ := h
        cases a with
        | nil =>
          exfalso
          apply hp
          simp at hab
          rw [hab]
          exact isPrefixList_self_append pat b
        | cons a0 a0s =>
          simp only [List.cons_append, List.cons.injEq] at hab
          have := ih l0 r0 hs a0s b hab.2
          simpa using this

/-- C3: permission-codec round-trip: for every value `v` in `[0, 511]`,
parsing the rendered zero-padded three-digit octal string yields `v`
back. -/
theorem perm_codec_roundtrip (v : Nat) (h : v < 512) :
    octalPermissions_from_str (octalPermissions_fmt v) = some v := by
  have key : ∀ w : Fin 512,
      octalPermissions_from_str (octalPermissions_fmt w.val) = some w.val := by decide
  exact key ⟨v, h⟩

/-- C3 witness at `v = 420` (mode `0o644`). -/
theorem perm_codec_roundtrip_witness :
    octalPermissions_from_str (octalPermissions_fmt 420) = some 420 :=
  perm_codec_roundtrip 420 (by decide)

/-- Folding over octal digits only cannot fail. -/
theorem fromStrGo_isSome (s : Str) :
    ∀ acc : Nat, (∀ c ∈ s, (charToDigit8 c).isSome) → ∃ v, fromStrGo acc s = some v := by
  induction s with
  | nil => intro acc _; exact ⟨acc, rfl⟩
  | cons c cs ih =>
    intro acc h
    have hc : (charToDigit8 c).isSome = true := h c (by simp)
    obtain ⟨d, hd⟩ := Option.isSome_iff_exists.mp hc
    rw [show fromStrGo acc (c :: cs) =
      (match charToDigit8 c with
       | none => none
       | some d => fromStrGo (acc * 8 % 2 ^ 32 + d) cs) from rfl, hd]
    exact ih _ (fun x hx => h x (by simp [hx]))

/-- C10: the permission parser accepts any string whose trimmed form
consists of zero or more octal digits, not only one to three of them:
empty or all-whitespace input parses to 0, and longer digit strings
accumulate every digit via `value * 8 + digit`, e.g. `"7777"` gives
4095, outside the 9-bit range. -/
theorem perm_parser_accepts_any_digit_count (s : Str)
    (h : ∀ c ∈ trim s, (charToDigit8 c).isSome) :
    (∃ v, octalPermissions_from_str s = some v) ∧
    octalPermissions_from_str [] = some 0 ∧
    octalPermissions_from_str [' ', ' '] = some 0 ∧
    octalPermissions_from_str ['7', '7', '7', '7'] = some 4095 :=
  ⟨fromStrGo_isSome (trim s) 0 h, by decide, by decide, by decide⟩

/-- C10 witness on the five-digit input `" 12345 "`. -/
theorem perm_parser_accepts_any_digit_count_witness :
    ∃ v, octalPermissions_from_str [' ', '1', '2', '3', '4', '5', ' '] = some v :=
  (perm_parser_accepts_any_digit_count [' ', '1', '2', '3', '4', '5', ' '] (by decide)).1

/-- A parsable start side always gets its write attempted, whatever the
end side holds and whatever outcomes the filesystem reports. -/
theorem start_write_attempted (wr : Side → Bool) (s : Str) (v : Nat)
    (hv : parse_u8 s = some v) (e_o : Option Str) :
    Event.writeAttempt Side.startSide (u8_to_string v) (wr Side.startSide)
      ∈ set_thresholds wr (some s) e_o := by
  cases e_o with
  | none => simp [set_thresholds, hv]
  | some es => cases he : parse_u8 es <;> simp [set_thresholds, hv, he]

/-- A parsable end side always gets its write attempted, whatever the
start side holds and whatever outcomes the filesystem reports. -/
theorem end_write_attempted (wr : Side → Bool) (e : Str) (v : Nat)
    (hv : parse_u8 e = some v) (s_o : Option Str) :
    Event.writeAttempt Side.endSide (u8_to_string v) (wr Side.endSide)
      ∈ set_thresholds wr s_o (some e) := by
  cases s_o with
  | none => simp [set_thresholds, hv]
  | some ss => cases hs : parse_u8 ss <;> simp [set_thresholds, hv, hs]

/-- C4: threshold dispatch.  Both sides absent reports "neither
threshold provided" with no write; each present parsable side gets its
decimal form written independently of the other side's parse or write
outcome; and when at least one side is present but none parses, the
only event is the "neither threshold parsable" report (zero writes). -/
theorem set_thresholds_spec (wr : Side → Bool) (s e : Str) (s_o e_o : Option Str) :
    set_thresholds wr none none =
      [Event.logError "Neither start nor end threshold provided"] ∧
    (∀ v, parse_u8 s = some v →
      Event.writeAttempt Side.startSide (u8_to_string v) (wr Side.startSide)
        ∈ set_thresholds wr (some s) e_o) ∧
    (∀ v, parse_u8 e = some v →
      Event.writeAttempt Side.endSide (u8_to_string v) (wr Side.endSide)
        ∈ set_thresholds wr s_o (some e)) ∧
    ((s_o.isNone && e_o.isNone) = false → parsableSide s_o = false →
      parsableSide e_o = false →
      set_thresholds wr s_o e_o =
        [Event.logError "Neither start nor end threshold parsable"]) := by
  refine ⟨rfl, fun v hv => start_write_attempted wr s v hv e_o,
    fun v hv => end_write_attempted wr e v hv s_o, fun hne hs he => ?_⟩
  cases s_o with
  | none =>
    cases e_o with
    | none => simp at hne
    | some es =>
      cases hpe : parse_u8 es with
      | some v => simp [parsableSide, hpe] at he
      | none => simp [set_thresholds, hpe]
  | some ss =>
    cases hps : parse_u8 ss with
    | some v => simp [parsableSide, hps] at hs
    | none =>
      cases e_o with
      | none => simp [set_thresholds, hps]
      | some es =>
        cases hpe : parse_u8 es with
        | some v => simp [parsableSide, hpe] at he
        | none => simp [set_thresholds, hps, hpe]

/-- C4 witness: `"10"` against an unparsable end side gets written even
when the end write would fail; `"abc" .. "def"` yields only the
"neither parsable" report. -/
theorem set_thresholds_spec_witness :
    Event.writeAttempt Side.startSide (u8_to_string 10) ((fun _ => false) Side.startSide)
      ∈ set_thresholds (fun _ => false) (some ['1', '0']) (some ['a', 'b', 'c']) ∧
    set_thresholds (fun _ => false) (some ['a', 'b', 'c']) (some ['d', 'e', 'f']) =
      [Event.logError "Neither start nor end threshold parsable"] :=
  ⟨(set_thresholds_spec (fun _ => false) ['1', '0'] ['d']
      (some ['a']) (some ['a', 'b', 'c'])).2.1 10 (by decide),
   (set_thresholds_spec (fun _ => false) ['1', '0'] ['d']
      (some ['a', 'b', 'c']) (some ['d', 'e', 'f'])).2.2.2 (by decide) (by decide) (by decide)⟩

/-- C5: range form.  Whenever the payload contains `".."`, the parser
splits at its first occurrence, trims both parts, and dispatches an
intent with both sides populated; this branch is tried before the
assignment form, so it wins even when the payload also contains
`'='`. -/
theorem parser_range_form (wr : Side → Bool) (cmd : Str)
    (h : containsSeq dotdot cmd = true) :
    ∃ l r : Str, splitOnce dotdot cmd = some (l, r) ∧
      cmd = l ++ dotdot ++ r ∧
      (∀ a b : Str, cmd = a ++ dotdot ++ b → l.length ≤ a.length) ∧
      handle_command wr cmd = set_thresholds wr (some (trim l)) (some (trim r)) := by
  rw [containsSeq_eq_isSome] at h
  obtain ⟨⟨l, r⟩, hs⟩ := Option.isSome_iff_exists.mp h
  refine ⟨l, r, hs, splitOnce_eq_append dotdot cmd l r hs,
    splitOnce_first dotdot cmd l r hs, ?_⟩
  simp [handle_command, hs, trim_if_some]

/-- C5 witness on `"a=1..2"`: the range form wins over the contained
`'='`; the first occurrence of `".."` splits it into `"a=1"` and
`"2"`. -/
theorem parser_range_form_witness :
    ∃ l r : Str, splitOnce dotdot ['a', '=', '1', '.', '.', '2'] = some (l, r) ∧
      ['a', '=', '1', '.', '.', '2'] = l ++ dotdot ++ r ∧
      (∀ a b : Str, ['a', '=', '1', '.', '.', '2'] = a ++ dotdot ++ b →
        l.length ≤ a.length) ∧
      handle_command (fun _ => true) ['a', '=', '1', '.', '.', '2'] =
        set_thresholds (fun _ => true) (some (trim l)) (some (trim r)) :=
  parser_range_form (fun _ => true) ['a', '=', '1', '.', '.', '2'] (by decide)

/-- C6: assignment form and fallback.  A payload without `".."` that
splits at its first `'='` is handled by the trimmed mode: exactly
`"start"` gives a start-only intent, exactly `"end"` an end-only
intent, anything else only the "wrong mode" report; and a payload with
neither `".."` nor `'='` produces no events at all. -/
theorem parser_assignment_form (wr : Side → Bool) (cmd : Str)
    (hno : containsSeq dotdot cmd = false) :
    (∀ m v : Str, splitOnce eqLit cmd = some (m, v) →
      handle_command wr cmd =
        (if trim m = startLit then set_thresholds wr (some (trim v)) none
         else if trim m = endLit then set_thresholds wr none (some (trim v))
         else [Event.logError "Wrong mode provided"])) ∧
    (containsSeq eqLit cmd = false → handle_command wr cmd = []) := by
  rw [containsSeq_eq_isSome] at hno
  have hnone : splitOnce dotdot cmd = none := by
    cases hs : splitOnce dotdot cmd with
    | none => rfl
    | some lr => rw [hs] at hno; simp at hno
  constructor
  · intro m v hmv
    simp [handle_command, hnone, hmv, trim_if_some]
  · intro heq
    rw [containsSeq_eq_isSome] at heq
    have heqnone : splitOnce eqLit cmd = none := by
      cases hs : splitOnce eqLit cmd with
      | none => rfl
      | some lr => rw [hs] at heq; simp at heq
    simp [handle_command, hnone, heqnone, trim_if_some]

/-- C6 witness: `"start = 5"` splits at `'='` into mode `"start"` and
value `"5"`; `"hello"` contains neither delimiter and is silently
discarded. -/
theorem parser_assignment_form_witness :
    (handle_command (fun _ => true) ['s', 't', 'a', 'r', 't', '=', ' ', '5'] =
      (if trim ['s', 't', 'a', 'r', 't'] = startLit then
        set_thresholds (fun _ => true) (some (trim [' ', '5'])) none
       else if trim ['s', 't', 'a', 'r', 't'] = endLit then
        set_thresholds (fun _ => true) none (some (trim [' ', '5']))
       else [Event.logError "Wrong mode provided"])) ∧
    handle_command (fun _ => true) ['h', 'e', 'l', 'l', 'o'] = [] :=
  ⟨(parser_assignment_form (fun _ => true) ['s', 't', 'a', 'r', 't', '=', ' ', '5']
      (by decide)).1 ['s', 't', 'a', 'r', 't'] [' ', '5'] (by decide),
   (parser_assignment_form (fun _ => true) ['h', 'e', 'l', 'l', 'o']
      (by decide)).2 (by decide)⟩

/-- C1 counterexample: inspection of the channel path fails with
permission-denied — not absence — yet the provisioner attempts the FIFO
creation and proceeds instead of stopping without creating anything
(`main` branches only on `Ok`/`Err` of `metadata`, never on the error
kind). -/
theorem provision_other_error_counterexample :
    envInspectDenied.metadataResult = Except.error IoErrorKind.permissionDenied ∧
    (provision envInspectDenied).1 ≠ ProvisionOutcome.abort ∧
    Action.mkfifoAct 511 ∈ (provision envInspectDenied).2.1 := by decide

/-- C1 amended: every inspection failure, absence or any other error
kind alike, leads to the FIFO creation attempt; the provisioner then
proceeds exactly when `mkfifo` succeeds and aborts exactly when it
fails. -/
theorem provision_inspect_error_creates (env : ProvisionEnv) (k : IoErrorKind)
    (h : env.metadataResult = Except.error k) :
    (provision env).2.1 = [Action.setUmask 0, Action.mkfifoAct env.pipe_permissions] ∧
    (provision env).1 =
      (if env.mkfifoOk then ProvisionOutcome.proceed else ProvisionOutcome.abort) := by
  cases hm : env.mkfifoOk <;> simp [provision, h, hm]

/-- C1 amended witness: the absent-path case attempts creation. -/
theorem provision_inspect_error_creates_witness :
    (provision envCreateSuccess).2.1 =
      [Action.setUmask 0, Action.mkfifoAct envCreateSuccess.pipe_permissions] ∧
    (provision envCreateSuccess).1 =
      (if envCreateSuccess.mkfifoOk then ProvisionOutcome.proceed
       else ProvisionOutcome.abort) :=
  provision_inspect_error_creates envCreateSuccess IoErrorKind.notFound rfl

/-- C2 counterexample: on the creation path with prior umask `0o022`
and a successful `mkfifo`, the umask after the creation step is 0 —
the prior value is never restored. -/
theorem umask_restore_counterexample :
    envCreateSuccess.priorUmask = 18 ∧
    Action.setUmask 0 ∈ (provision envCreateSuccess).2.1 ∧
    (provision envCreateSuccess).1 = ProvisionOutcome.proceed ∧
    (provision envCreateSuccess).2.2 = 0 ∧
    (provision envCreateSuccess).2.2 ≠ envCreateSuccess.priorUmask := by decide

/-- C2 amended: on the FIFO-creation path the process umask is set to 0
before creation and is never restored: it remains 0 after the creation
step on both the success and the failure exit. -/
theorem umask_cleared_not_restored (env : ProvisionEnv) (k : IoErrorKind)
    (h : env.metadataResult = Except.error k) :
    (provision env).2.1 = [Action.setUmask 0, Action.mkfifoAct env.pipe_permissions] ∧
    (provision env).2.2 = 0 := by
  cases hm : env.mkfifoOk <;> simp [provision, h, hm]

/-- C2 amended witness: the failed-creation exit also leaves the umask
at 0. -/
theorem umask_cleared_not_restored_witness :
    (provision
        { envCreateSuccess with mkfifoOk := false }).2.1 =
      [Action.setUmask 0,
        Action.mkfifoAct ({ envCreateSuccess with mkfifoOk := false }).pipe_permissions] ∧
    (provision { envCreateSuccess with mkfifoOk := false }).2.2 = 0 :=
  umask_cleared_not_restored { envCreateSuccess with mkfifoOk := false }
    IoErrorKind.notFound rfl

/-- C7: when the channel path exists but holds a non-FIFO, provisioning
aborts the whole program and attempts no filesystem action at all — the
object is neither deleted, overwritten, re-owned nor re-moded. -/
theorem provision_nonfifo_aborts (env : ProvisionEnv) (md : Metadata)
    (h1 : env.metadataResult = Except.ok md) (h2 : md.isFifo = false) :
    provision env = (ProvisionOutcome.abort, [], env.priorUmask) := by
  simp [provision, h1, h2]

/-- C7 witness: a regular file at the channel path. -/
theorem provision_nonfifo_aborts_witness :
    provision envNonFifo = (ProvisionOutcome.abort, [], envNonFifo.priorUmask) :=
  provision_nonfifo_aborts envNonFifo
    { isFifo := false, uid := 1000, gid := 1000, mode := 33188 } rfl rfl

/-- C8: the startup writability gate aborts when neither control path
is writable and proceeds into serving when at least one (in particular
exactly one) is; and a non-writable side surfaces only per-write
outcomes later — with both sides parsable, both writes are attempted
whatever outcome each write gets. -/
theorem writability_gate_spec (s e : Bool) (wrOk : Side → Bool) (sv ev : Str) :
    (s = false → e = false → writability_gate s e = StartupOutcome.abortRun) ∧
    (s = true ∨ e = true → writability_gate s e = StartupOutcome.serve) ∧
    (∀ vs vend : Nat, parse_u8 sv = some vs → parse_u8 ev = some vend →
      Event.writeAttempt Side.startSide (u8_to_string vs) (wrOk Side.startSide)
        ∈ set_thresholds wrOk (some sv) (some ev) ∧
      Event.writeAttempt Side.endSide (u8_to_string vend) (wrOk Side.endSide)
        ∈ set_thresholds wrOk (some sv) (some ev)) := by
  refine ⟨fun hs he => by simp [writability_gate, hs, he], fun h => ?_,
    fun vs vend hvs hvend =>
      ⟨start_write_attempted wrOk sv vs hvs (some ev),
       end_write_attempted wrOk ev vend hvend (some sv)⟩⟩
  rcases h with h | h <;> simp [writability_gate, h]

/-- C8 witness: only the end path writable still serves, and with the
start write failing both sides of `"10..20"` are attempted. -/
theorem writability_gate_spec_witness :
    writability_gate false false = StartupOutcome.abortRun ∧
    writability_gate false true = StartupOutcome.serve ∧
    (Event.writeAttempt Side.startSide (u8_to_string 10)
        ((fun side => side = Side.endSide) Side.startSide)
      ∈ set_thresholds (fun side => side = Side.endSide)
        (some ['1', '0']) (some ['2', '0']) ∧
     Event.writeAttempt Side.endSide (u8_to_string 20)
        ((fun side => side = Side.endSide) Side.endSide)
      ∈ set_thresholds (fun side => side = Side.endSide)
        (some ['1', '0']) (some ['2', '0'])) :=
  ⟨(writability_gate_spec false false (fun _ => true) [] []).1 rfl rfl,
   (writability_gate_spec false true (fun _ => true) [] []).2.1 (Or.inr rfl),
   (writability_gate_spec false true (fun side => side = Side.endSide)
      ['1', '0'] ['2', '0']).2.2 10 20 (by decide) (by decide)⟩

/-- C9: the serving loop never terminates: every iteration — read
failure or success — continues the loop; a failed read only logs the
read error (in particular it attempts no write and feeds nothing to the
parser), while a successful read is handed to the command parser. -/
theorem serving_loop_spec (wr : Side → Bool) (cmd : Str) :
    (∀ r : ReadResult, (loop_iteration wr r).2 = LoopControl.next) ∧
    (loop_iteration wr ReadResult.err).1 =
      [Event.logError "Error while reading IPC command from pipe"] ∧
    loop_iteration wr (ReadResult.ok cmd) = (handle_command wr cmd, LoopControl.next) := by
  refine ⟨fun r => ?_, rfl, rfl⟩
  cases r <;> rfl

end BatteryManagement
